import Mathlib

/-!
Verification of the Antigravity account-switcher core against its source:
the status-bar extension (`extension.js`) and the profile manager
PowerShell script (`profile_manager.ps1`, embedded in the repository README).

The shallow embedding models:
* the rate-limit Pattern Matcher (`RATE_LIMIT_PATTERNS`, `containsRateLimitError`),
* the Cooldown Gate (`RATE_LIMIT_COOLDOWN`, `lastRateLimitAlert` logic in
  `handleRateLimitDetected`),
* the Profile Store operations of `profile_manager.ps1`
  (`Save-Profile`, `Switch-Profile`, `Remove-Profile`),
* the pointer-writing behaviour of the extension command handlers, and
* the 30-second log-tail poll (`logCheckInterval`).
Strings are modelled by Lean `String`/`List Char`; JavaScript `toLowerCase`
and PowerShell case-insensitive `-eq` are modelled by ASCII case folding
(`Char.toLower`), which agrees with both on the ASCII texts involved.
-/

/-- ASCII lower-casing of a character list: the model of JavaScript
`String.prototype.toLowerCase` and of PowerShell case folding. -/
def lowerL (l : List Char) : List Char := l.map Char.toLower

/-- `isPrefixL pat text` is true when `pat` is an initial segment of `text`. -/
def isPrefixL : List Char → List Char → Bool
  | [], _ => true
  | _ :: _, [] => false
  | p :: ps, t :: ts => p == t && isPrefixL ps ts

/-- `containsSub text pat` models JavaScript `text.includes(pat)`:
`pat` occurs as a contiguous substring of `text`. -/
def containsSub : List Char → List Char → Bool
  | [], pat => isPrefixL pat []
  | t :: ts, pat => isPrefixL pat (t :: ts) || containsSub ts pat

/-- The fixed keyword list `RATE_LIMIT_PATTERNS` from `extension.js`. -/
def RATE_LIMIT_PATTERNS : List String :=
  ["rate limit", "quota exceeded", "too many requests", "limit reached",
   "resource exhausted", "429", "RESOURCE_EXHAUSTED",
   "overloaded", "capacity", "rate_limit_error", "overloaded_error",
   "api_error", "Request limit", "usage limit",
   "model is currently overloaded", "temporarily unavailable"]

/-- `containsRateLimitError` from `extension.js`: lower-case the text once and
test whether any lower-cased pattern occurs in it as a substring. -/
def containsRateLimitError (text : String) : Bool :=
  let lowerText := lowerL text.data
  RATE_LIMIT_PATTERNS.any fun pattern => containsSub lowerText (lowerL pattern.data)

/-- `RATE_LIMIT_COOLDOWN` from `extension.js`: one minute, in milliseconds. -/
def RATE_LIMIT_COOLDOWN : Int := 60000

/-- Initial value of the mutable `lastRateLimitAlert` in `extension.js`
(`let lastRateLimitAlert = 0`; times are milliseconds since the epoch). -/
def initialLastAlert : Int := 0

/-- The Cooldown Gate at the top of `handleRateLimitDetected`: given the
current time and the stored `lastRateLimitAlert`, return whether the alert
fires together with the new value of `lastRateLimitAlert`. -/
def shouldFire (now lastAlert : Int) : Bool × Int :=
  if now - lastAlert < RATE_LIMIT_COOLDOWN then (false, lastAlert) else (true, now)

/-- A snapshot of a directory tree: relative paths paired with contents.
`Copy-Item -Recurse` is modelled as copying this value. -/
abbrev Snapshot := List (String × String)

/-- A saved profile: one directory under `%APPDATA%\Antigravity\Profiles`.
`created` models the directory `CreationTime` reported by `Get-Profiles`. -/
structure Profile where
  name : String
  created : Nat
  snapshot : Snapshot
deriving DecidableEq, Repr

/-- The filesystem and process state the profile manager manipulates. -/
structure FsState where
  /-- Directories under `Profiles\`, one per saved profile. -/
  profiles : List Profile
  /-- The Live Session Directory `User\`, `none` when absent. -/
  liveDir : Option Snapshot
  /-- The transient `User_switching_backup` directory. -/
  backupDir : Option Snapshot
  /-- Contents of `active_profile.txt`, `none` when the file is absent. -/
  pointer : Option String
  /-- Whether an Antigravity process is running. -/
  processRunning : Bool
deriving DecidableEq, Repr

/-- The error taxonomy of the profile manager. -/
inductive Err where
  | InvalidName
  | CapacityExceeded
  | SourceMissing
  | NotFound
  | ProcessHostUnavailable
deriving DecidableEq, Repr

/-- Case-insensitive string equality: PowerShell `-eq` and the extension's
`a.toLowerCase() === b.toLowerCase()`, under ASCII folding. -/
def eqIC (a b : String) : Bool := lowerL a.data == lowerL b.data

/-- The reserved characters rejected by `Save-Profile`
(`$Name -match '[\\/:*?"<>|]'`). -/
def invalidNameChars : List Char :=
  ['\\', '/', ':', '*', '?', '"', '<', '>', '|']

/-- Whether a profile name contains a reserved character. -/
def hasInvalidChar (name : String) : Bool :=
  name.data.any fun c => invalidNameChars.contains c

/-- `$existingProfiles.Count` in `Save-Profile`. `Get-Profiles` returns its
array through the pipeline without an `@()` wrapper, so PowerShell unwraps a
one-element result to the bare hashtable, whose `Count` is its number of
keys (`Name`, `Created`, `Size` — that is, 3); zero elements give `$null`
with `Count` 0, and two or more elements keep the true array length. -/
def psCount (n : Nat) : Nat := if n = 1 then 3 else n

/-- `Save-Profile` (with the dispatcher's empty-name check), acting on the
modelled state. Checks, in source order: empty name, reserved characters,
the capacity test using `psCount`, existence of the Live Session Directory;
then removes any case-insensitively matching snapshot and copies the live
directory in as a snapshot named `name` created at time `now`. -/
def saveAction (maxProfiles now : Nat) (name : String) (st : FsState) :
    Except Err Unit × FsState :=
  if name.data = [] then (Except.error Err.InvalidName, st)
  else if hasInvalidChar name then (Except.error Err.InvalidName, st)
  else
    if (st.profiles.any fun p => eqIC p.name name) = false ∧
        maxProfiles ≤ psCount st.profiles.length then
      (Except.error Err.CapacityExceeded, st)
    else
      match st.liveDir with
      | none => (Except.error Err.SourceMissing, st)
      | some live =>
          (Except.ok (),
            { st with profiles :=
                (st.profiles.filter fun p => !(eqIC p.name name)) ++
                  [⟨name, now, live⟩] })

/-- `Remove-Profile`: fails when no snapshot matches the name
(`Test-Path` on a case-insensitive filesystem), otherwise removes the
matching snapshot. Never touches `active_profile.txt`. -/
def deleteAction (name : String) (st : FsState) : Except Err Unit × FsState :=
  if st.profiles.any (fun p => eqIC p.name name) then
    (Except.ok (), { st with profiles := st.profiles.filter fun p => !(eqIC p.name name) })
  else
    (Except.error Err.NotFound, st)

/-- `Switch-Profile`: look up the snapshot; fail `NotFound` when absent,
`ProcessHostUnavailable` when no executable is found; otherwise stop the
process, delete any stale backup, rename the live directory to the backup
path, copy the snapshot in, and relaunch. The state returned is the one at
the end of the script, before the deferred background backup cleanup. -/
def switchAction (exeFound : Bool) (name : String) (st : FsState) :
    Except Err Unit × FsState :=
  match st.profiles.find? (fun p => eqIC p.name name) with
  | none => (Except.error Err.NotFound, st)
  | some prof =>
    if exeFound = false then (Except.error Err.ProcessHostUnavailable, st)
    else
      let stStopped := { st with processRunning := false }
      let stBackupCleared := { stStopped with backupDir := none }
      let stRenamed :=
        match stBackupCleared.liveDir with
        | some live => { stBackupCleared with liveDir := none, backupDir := some live }
        | none => stBackupCleared
      let stCopied := { stRenamed with liveDir := some prof.snapshot }
      (Except.ok (), { stCopied with processRunning := true })

/-- Observable actions of the extension command handlers, in program order. -/
inductive UiEvent where
  /-- A `setActiveProfile(name)` write of `active_profile.txt`. -/
  | setPointer (name : String)
  /-- `runProfileManager('Load', name)`: the stop/backup/copy/restart swap. -/
  | runLoad (name : String)
  /-- `runProfileManager('Save', name)`. -/
  | runSave (name : String)
  /-- Any user-facing message. -/
  | notify
deriving DecidableEq, Repr

/-- `NUM_SLOTS` from `extension.js`. -/
def NUM_SLOTS : Nat := 5

/-- The `activeProfileName && activeProfileName.toLowerCase() ===
profileName.toLowerCase()` test of the slot handler: an absent pointer file
and an empty pointer string are both falsy. -/
def activeMatches (active : Option String) (name : String) : Bool :=
  match active with
  | none => false
  | some a => !a.data.isEmpty && eqIC a name

/-- Event trace of the slot-button handler `slotAction<i>`: on a filled slot
whose profile is not already active, it writes the Active-Profile Pointer
first and only then runs the `Load` swap (`loadOk` is the reported outcome
of the PowerShell script). -/
def slotActionTrace (profiles : List String) (active : Option String) (i : Nat)
    (loadOk : Bool) : List UiEvent :=
  match profiles.get? i with
  | none => [UiEvent.notify]
  | some name =>
    if activeMatches active name then [UiEvent.notify]
    else
      UiEvent.setPointer name :: UiEvent.runLoad name ::
        (if loadOk then [] else [UiEvent.notify])

/-- Event trace of the command-palette handler
`antigravity-switcher.switchProfile` once a profile has been picked:
it runs the `Load` swap without ever writing the Active-Profile Pointer. -/
def switchCmdTrace (selected : String) (loadOk : Bool) : List UiEvent :=
  UiEvent.runLoad selected :: (if loadOk then [] else [UiEvent.notify])

/-- Event trace of `antigravity-switcher.saveProfile`: blocked outright when
all slots are full; otherwise, for a validated entered name, it runs `Save`
and, on success, writes the Active-Profile Pointer and notifies. `entered`
is `none` when the user cancels the input box. -/
def saveCmdTrace (profiles : List String) (entered : Option String)
    (saveOk : Bool) : List UiEvent :=
  if NUM_SLOTS ≤ profiles.length then [UiEvent.notify]
  else
    match entered with
    | none => []
    | some name =>
      UiEvent.runSave name ::
        (if saveOk then [UiEvent.setPointer name, UiEvent.notify]
         else [UiEvent.notify])

/-- The read cap of the log poll: `Buffer.alloc(Math.min(stats.size -
lastLogSize, 10000))`. -/
def LOG_READ_CAP : Nat := 10000

/-- One cycle of the 30-second `logCheckInterval` poll. `file` is the
current primary log file's character content, `none` when any of the
existence checks fails (or an exception is swallowed); `lastLogSize` is the
mutable cursor. Returns the new cursor and, when the file grew, the slice
actually read and handed to the Pattern Matcher. -/
def logPollCycle (file : Option (List Char)) (lastLogSize : Nat) :
    Nat × Option (List Char) :=
  match file with
  | none => (lastLogSize, none)
  | some content =>
    if content.length ≤ lastLogSize then (lastLogSize, none)
    else
      (content.length,
       some ((content.drop lastLogSize).take
              (min (content.length - lastLogSize) LOG_READ_CAP)))

/-- Whether one poll cycle raises the rate-limit alert: the Pattern Matcher
applied to the slice read this cycle. -/
def logPollAlert (file : Option (List Char)) (lastLogSize : Nat) : Bool :=
  match (logPollCycle file lastLogSize).2 with
  | none => false
  | some delta => containsRateLimitError ⟨delta⟩

/-- The spec-side notion of a case-insensitive occurrence: some contiguous
slice of `text` equals `pat` up to case. -/
def matchIgnoringCase (pat text : List Char) : Prop :=
  ∃ l m r, text = l ++ m ++ r ∧ lowerL m = lowerL pat

/-- Prefix testing agrees with an explicit decomposition of the text. -/
theorem isPrefixL_iff (pat text : List Char) :
    isPrefixL pat text = true ↔ ∃ u, text = pat ++ u := by
  induction pat generalizing text with
  | nil => simp [isPrefixL]
  | cons p ps ih =>
    cases text with
    | nil => simp [isPrefixL]
    | cons t ts =>
      simp only [isPrefixL, Bool.and_eq_true, beq_iff_eq, ih, List.cons_append,
        List.cons.injEq]
      constructor
      · rintro ⟨rfl, u, rfl⟩
        exact ⟨u, rfl, rfl⟩
      · rintro ⟨u, rfl, rfl⟩
        exact ⟨rfl, u, rfl⟩

/-- The model of JavaScript `includes` agrees with an explicit substring
decomposition of the text. -/
theorem containsSub_iff (text pat : List Char) :
    containsSub text pat = true ↔ ∃ s u, text = s ++ pat ++ u := by
  induction text with
  | nil =>
    rw [containsSub, isPrefixL_iff]
    constructor
    · rintro ⟨u, hu⟩
      exact ⟨[], u, by simpa using hu⟩
    · rintro ⟨s, u, hu⟩
      refine ⟨u, ?_⟩
      rcases List.append_eq_nil.mp hu.symm with ⟨h1, h2⟩
      rcases List.append_eq_nil.mp h1 with ⟨rfl, rfl⟩
      simp [h2]
  | cons t ts ih =>
    rw [containsSub, Bool.or_eq_true, isPrefixL_iff, ih]
    constructor
    · rintro (⟨u, hu⟩ | ⟨s, u, hu⟩)
      · exact ⟨[], u, by simpa using hu⟩
      · exact ⟨t :: s, u, by simp [hu]⟩
    · rintro ⟨s, u, hu⟩
      cases s with
      | nil => exact Or.inl ⟨u, by simpa using hu⟩
      | cons x xs =>
        simp only [List.cons_append, List.cons.injEq] at hu
        exact Or.inr ⟨xs, u, hu.2⟩

/-- A decomposition of a lower-cased text lifts to a decomposition of the
text itself. -/
theorem lowerL_split (text s q u : List Char) (h : lowerL text = s ++ q ++ u) :
    ∃ l m r, text = l ++ m ++ r ∧ lowerL l = s ∧ lowerL m = q ∧ lowerL r = u := by
  unfold lowerL at h
  rcases List.map_eq_append_iff.mp h with ⟨init, r, rfl, hinit, hr⟩
  rcases List.map_eq_append_iff.mp hinit with ⟨l, m, rfl, hl, hm⟩
  exact ⟨l, m, r, rfl, hl, hm, hr⟩

/-- Lower-case-both-sides substring testing is exactly a case-insensitive
occurrence of the pattern in the text. -/
theorem containsSub_lower_iff (pat text : List Char) :
    containsSub (lowerL text) (lowerL pat) = true ↔ matchIgnoringCase pat text := by
  rw [containsSub_iff]
  constructor
  · rintro ⟨s, u, hu⟩
    rcases lowerL_split text s (lowerL pat) u hu with ⟨l, m, r, rfl, _, hm, _⟩
    exact ⟨l, m, r, rfl, hm⟩
  · rintro ⟨l, m, r, rfl, hm⟩
    refine ⟨lowerL l, lowerL r, ?_⟩
    simp only [lowerL, List.map_append] at *
    rw [hm]

/-- Case-insensitive equality with a common right-hand side is transitive. -/
theorem eqIC_of_eqIC (a b c : String) (h1 : eqIC a c = true) (h2 : eqIC b c = true) :
    eqIC a b = true := by
  unfold eqIC at *
  rw [beq_iff_eq] at *
  rw [h1, h2]

/-- Removing the matching elements of a list that contains a match, when no
two elements can match simultaneously, shortens the list by exactly one. -/
theorem length_filter_not_of_unique {α : Type} (f : α → Bool) :
    ∀ l : List α, l.Pairwise (fun a b => ¬(f a = true ∧ f b = true)) →
      l.any f = true → (l.filter fun a => !(f a)).length + 1 = l.length := by
  intro l
  induction l with
  | nil => simp
  | cons x xs ih =>
    intro hpw hany
    rcases List.pairwise_cons.mp hpw with ⟨hx, hxs⟩
    by_cases hfx : f x = true
    · have hall : ∀ y ∈ xs, f y = false := by
        intro y hy
        cases hfy : f y
        · rfl
        · exact absurd ⟨hfx, hfy⟩ (hx y hy)
      have hself : xs.filter (fun a => !(f a)) = xs := by
        rw [List.filter_eq_self]
        intro a ha
        simp [hall a ha]
      simp [List.filter_cons, hfx, hself]
    · have hfx' : f x = false := by
        cases h : f x
        · rfl
        · exact absurd h hfx
      have hany' : xs.any f = true := by
        rcases List.any_eq_true.mp hany with ⟨y, hy, hfy⟩
        rcases List.mem_cons.mp hy with rfl | hy'
        · exact absurd hfy hfx
        · exact List.any_eq_true.mpr ⟨y, hy', hfy⟩
      have hrec := ih hxs hany'
      simp only [List.filter_cons, hfx', Bool.not_false, if_pos, List.length_cons]
      omega

/-- Unfolding equation of the log poll on a missing file. -/
theorem logPollCycle_none (c : Nat) : logPollCycle none c = (c, none) := rfl

/-- Unfolding equation of the log poll on a present file. -/
theorem logPollCycle_some (content : List Char) (c : Nat) :
    logPollCycle (some content) c =
      if content.length ≤ c then (c, none)
      else (content.length,
            some ((content.drop c).take (min (content.length - c) LOG_READ_CAP))) := rfl

/-- One poll cycle never decreases the cursor. -/
theorem pollCursor_le (file : Option (List Char)) (c : Nat) :
    c ≤ (logPollCycle file c).1 := by
  unfold logPollCycle
  cases file with
  | none => simp
  | some content =>
    by_cases h : content.length ≤ c
    · simp [h]
    · simp only [if_neg h]
      omega

/-- C1: the claim is right and the code is wrong. With `MaxProfiles = 2` and
exactly one saved profile "a" (so count 1 < 2, and "b" matches no existing
profile), the claim says `Save("b")` succeeds; but `Save-Profile` reads the
count of a single-profile store as 3 (PowerShell unwraps `Get-Profiles`'
one-element array to a bare hashtable and `.Count` counts its 3 keys, see
`psCount`), so the save fails with `CapacityExceeded`. -/
theorem C1_single_profile_capacity_bug :
    ([⟨"a", 0, [("s", "d")]⟩] : List Profile).length = 1 ∧ 1 < 2 ∧
    eqIC "a" "b" = false ∧
    saveAction 2 10 "b"
        ⟨[⟨"a", 0, [("s", "d")]⟩], some [("s", "d")], none, some "a", true⟩ =
      (Except.error Err.CapacityExceeded,
        ⟨[⟨"a", 0, [("s", "d")]⟩], some [("s", "d")], none, some "a", true⟩) :=
  ⟨rfl, by decide, by decide, rfl⟩

/-- C2 counterexample: the claim as stated is false. "A" case-insensitively
equals the existing profile "a", yet `Save("A")` does not succeed: when the
Live Session Directory is absent it fails with `SourceMissing`. -/
theorem C2_overwrite_cex :
    eqIC "A" "a" = true ∧
    saveAction 5 1 "A" ⟨[⟨"a", 0, []⟩], none, none, none, true⟩ =
      (Except.error Err.SourceMissing, ⟨[⟨"a", 0, []⟩], none, none, none, true⟩) :=
  ⟨by decide, rfl⟩

/-- C2 as amended: if `name` is a valid non-empty name that case-insensitively
equals an existing profile, and the Live Session Directory exists, then
`Save(name)` succeeds for any `MaxProfiles` bound (the capacity check is
skipped), the store count is unchanged (given the store invariant that names
are case-insensitively distinct), the profile is re-created with the new save
time as its creation time and the live directory as its snapshot, all other
profiles survive, and the live directory and pointer are untouched. -/
theorem C2_overwrite_amended (maxProfiles now : Nat) (name : String) (st : FsState)
    (live : Snapshot)
    (hne : name.data ≠ [])
    (hvalid : hasInvalidChar name = false)
    (hex : st.profiles.any (fun p => eqIC p.name name) = true)
    (hlive : st.liveDir = some live)
    (huniq : st.profiles.Pairwise fun p q => eqIC p.name q.name = false) :
    (saveAction maxProfiles now name st).1 = Except.ok () ∧
    (saveAction maxProfiles now name st).2.profiles.length = st.profiles.length ∧
    (⟨name, now, live⟩ : Profile) ∈ (saveAction maxProfiles now name st).2.profiles ∧
    (∀ p ∈ st.profiles, eqIC p.name name = false →
        p ∈ (saveAction maxProfiles now name st).2.profiles) ∧
    (saveAction maxProfiles now name st).2.liveDir = st.liveDir ∧
    (saveAction maxProfiles now name st).2.pointer = st.pointer := by
  have hs : saveAction maxProfiles now name st =
      (Except.ok (),
        { st with profiles := (st.profiles.filter fun p => !(eqIC p.name name)) ++
            [⟨name, now, live⟩] }) := by
    unfold saveAction
    rw [if_neg hne, if_neg (by simp [hvalid]), if_neg (by simp [hex]), hlive]
  refine ⟨by rw [hs], ?_, ?_, ?_, by rw [hs], by rw [hs]⟩
  · rw [hs]
    simp only [List.length_append, List.length_cons, List.length_nil]
    have hpw2 : st.profiles.Pairwise
        (fun a b => ¬(eqIC a.name name = true ∧ eqIC b.name name = true)) := by
      refine huniq.imp ?_
      intro a b hab
      rintro ⟨h1, h2⟩
      have h3 := eqIC_of_eqIC a.name b.name name h1 h2
      rw [hab] at h3
      exact Bool.false_ne_true h3
    have hlen : (st.profiles.filter fun p => !(eqIC p.name name)).length + 1 =
        st.profiles.length :=
      length_filter_not_of_unique (fun p => eqIC p.name name) st.profiles hpw2 hex
    omega
  · rw [hs]
    exact List.mem_append_right _ (by simp)
  · intro p hp hpf
    rw [hs]
    exact List.mem_append_left _ (List.mem_filter.mpr ⟨hp, by simp [hpf]⟩)

/-- C2 witness: with the store at its capacity bound (`MaxProfiles = 1`,
one profile "Alice"), saving "alice" over it succeeds, keeps the count at 1,
and stores the live directory's contents with the new creation time 99. -/
theorem C2_overwrite_w :
    (saveAction 1 99 "alice"
        ⟨[⟨"Alice", 5, [("f", "old")]⟩], some [("f", "new")], none, some "Alice",
          true⟩).1 = Except.ok () ∧
    (saveAction 1 99 "alice"
        ⟨[⟨"Alice", 5, [("f", "old")]⟩], some [("f", "new")], none, some "Alice",
          true⟩).2.profiles.length = 1 ∧
    (⟨"alice", 99, [("f", "new")]⟩ : Profile) ∈
      (saveAction 1 99 "alice"
        ⟨[⟨"Alice", 5, [("f", "old")]⟩], some [("f", "new")], none, some "Alice",
          true⟩).2.profiles := by
  have h := C2_overwrite_amended 1 99 "alice"
    ⟨[⟨"Alice", 5, [("f", "old")]⟩], some [("f", "new")], none, some "Alice", true⟩
    [("f", "new")] (by decide) (by decide) (by decide) rfl (by simp)
  exact ⟨h.1, h.2.1, h.2.2.1⟩

/-- C3: `Switch(name)` with a name matching no stored profile fails with
`NotFound` and changes nothing: the whole state is returned as given, so in
particular the Live Session Directory, the Profile Store, the backup
directory, and the running process are untouched. -/
theorem C3_switch_not_found (exeFound : Bool) (name : String) (st : FsState)
    (h : ∀ p ∈ st.profiles, eqIC p.name name = false) :
    switchAction exeFound name st = (Except.error Err.NotFound, st) ∧
    (switchAction exeFound name st).2.liveDir = st.liveDir ∧
    (switchAction exeFound name st).2.profiles = st.profiles ∧
    (switchAction exeFound name st).2.backupDir = st.backupDir ∧
    (switchAction exeFound name st).2.processRunning = st.processRunning := by
  have hf : st.profiles.find? (fun p => eqIC p.name name) = none := by
    rw [List.find?_eq_none]
    intro x hx
    simp [h x hx]
  have heq : switchAction exeFound name st = (Except.error Err.NotFound, st) := by
    unfold switchAction
    rw [hf]
  exact ⟨heq, by rw [heq], by rw [heq], by rw [heq], by rw [heq]⟩

/-- C3 witness: switching to "zzz" when only "a" is stored fails with
`NotFound` and returns the state unchanged. -/
theorem C3_switch_not_found_w :
    switchAction true "zzz" ⟨[⟨"a", 0, []⟩], some [], none, some "a", true⟩ =
      (Except.error Err.NotFound, ⟨[⟨"a", 0, []⟩], some [], none, some "a", true⟩) :=
  (C3_switch_not_found true "zzz" ⟨[⟨"a", 0, []⟩], some [], none, some "a", true⟩
    (by decide)).1

/-- C4: the Cooldown Gate returns false and keeps `lastFired` whenever less
than one `RATE_LIMIT_COOLDOWN` (60000 ms) window has elapsed, and otherwise
returns true and sets `lastFired := now`; consequently, for any current time
`t0` at least one window after the epoch (the initial `lastFired` is the
epoch value 0, the code's representation of "never"), the gate fires at
`t0`, is silent at `t0 + 30000` ms, and fires again at `t0 + 61000` ms. -/
theorem C4_cooldown_gate (now lastAlert t0 : Int) :
    (now - lastAlert < RATE_LIMIT_COOLDOWN →
        shouldFire now lastAlert = (false, lastAlert)) ∧
    (RATE_LIMIT_COOLDOWN ≤ now - lastAlert → shouldFire now lastAlert = (true, now)) ∧
    (RATE_LIMIT_COOLDOWN ≤ t0 →
      shouldFire t0 initialLastAlert = (true, t0) ∧
      shouldFire (t0 + 30000) t0 = (false, t0) ∧
      shouldFire (t0 + 61000) t0 = (true, t0 + 61000)) := by
  refine ⟨fun h => ?_, fun h => ?_, fun h => ⟨?_, ?_, ?_⟩⟩
  · unfold shouldFire
    rw [if_pos h]
  · unfold shouldFire
    rw [if_neg (by omega)]
  all_goals unfold shouldFire
  all_goals unfold RATE_LIMIT_COOLDOWN at h
  · unfold initialLastAlert
    rw [if_neg (by unfold RATE_LIMIT_COOLDOWN; omega)]
  · rw [if_pos (by unfold RATE_LIMIT_COOLDOWN; omega)]
  · rw [if_neg (by unfold RATE_LIMIT_COOLDOWN; omega)]

/-- C4 witness: the scenario at the concrete time `t0 = 1000000` ms. -/
theorem C4_cooldown_gate_w :
    shouldFire 1000000 initialLastAlert = (true, 1000000) ∧
    shouldFire 1030000 1000000 = (false, 1000000) ∧
    shouldFire 1061000 1000000 = (true, 1061000) :=
  (C4_cooldown_gate 0 0 1000000).2.2 (by decide)

/-- C5: `Matches(text)` is exactly a case-insensitive substring test against
the fixed keyword list — it is true iff some keyword occurs in the text
ignoring case; in particular it accepts "Error: RESOURCE_EXHAUSTED" and
rejects "build succeeded". -/
theorem C5_matcher (text : String) :
    (containsRateLimitError text = true ↔
      ∃ p, p ∈ RATE_LIMIT_PATTERNS ∧ matchIgnoringCase p.data text.data) ∧
    containsRateLimitError "Error: RESOURCE_EXHAUSTED" = true ∧
    containsRateLimitError "build succeeded" = false := by
  refine ⟨?_, by decide, by decide⟩
  unfold containsRateLimitError
  rw [List.any_eq_true]
  exact exists_congr fun p =>
    and_congr_right fun _ => containsSub_lower_iff p.data text.data

/-- C6 counterexample: the claim as stated is false. The command-palette
switch handler performs the `Load` swap without ever writing the
Active-Profile Pointer: its whole trace for a selected profile "alice" is
the single `Load` invocation, with no pointer write. -/
theorem C6_pointer_cex :
    switchCmdTrace "alice" true = [UiEvent.runLoad "alice"] ∧
    UiEvent.setPointer "alice" ∉ switchCmdTrace "alice" true :=
  ⟨rfl, by decide⟩

/-- C6 as amended: the Active-Profile Pointer is written on every successful
Save and on every slot-button Switch — for the slot buttons the write
happens immediately on selection, strictly before the `Load`
(process-stop/backup/copy) step — but the command-palette switch handler
never writes the pointer. -/
theorem C6_pointer_amended (profiles : List String) (active : Option String)
    (i : Nat) (name : String) (loadOk : Bool) :
    (profiles.get? i = some name → activeMatches active name = false →
      slotActionTrace profiles active i loadOk =
        UiEvent.setPointer name :: UiEvent.runLoad name ::
          (if loadOk then [] else [UiEvent.notify])) ∧
    (profiles.length < NUM_SLOTS →
      saveCmdTrace profiles (some name) true =
        [UiEvent.runSave name, UiEvent.setPointer name, UiEvent.notify]) ∧
    (∀ sel ok, UiEvent.setPointer sel ∉ switchCmdTrace sel ok) := by
  refine ⟨fun hslot hnot => ?_, fun hlen => ?_, fun sel ok => ?_⟩
  · unfold slotActionTrace
    rw [hslot]
    simp [hnot]
  · unfold saveCmdTrace
    rw [if_neg (Nat.not_le.mpr hlen)]
    rfl
  · cases ok <;> simp [switchCmdTrace]

/-- C6 witness: concrete traces — the slot button writes the pointer before
the swap; a successful save writes the pointer after the save. -/
theorem C6_pointer_amended_w :
    slotActionTrace ["alice", "bob"] (some "bob") 0 true =
      [UiEvent.setPointer "alice", UiEvent.runLoad "alice"] ∧
    saveCmdTrace ["alice", "bob"] (some "carol") true =
      [UiEvent.runSave "carol", UiEvent.setPointer "carol", UiEvent.notify] := by
  have h := C6_pointer_amended ["alice", "bob"] (some "bob") 0 "alice" true
  have h2 := C6_pointer_amended ["alice", "bob"] (some "bob") 0 "carol" true
  exact ⟨h.1 rfl (by decide), h2.2.1 (by decide)⟩

/-- C7: `Delete(name)` fails with `NotFound` when no profile matches and
otherwise removes exactly the matching snapshot; in both cases the
Active-Profile Pointer (and the live directory) are left unchanged — in
particular also when the pointer currently holds the deleted name. -/
theorem C7_delete_frame (name : String) (st : FsState) :
    ((∀ p ∈ st.profiles, eqIC p.name name = false) →
        deleteAction name st = (Except.error Err.NotFound, st)) ∧
    (st.profiles.any (fun p => eqIC p.name name) = true →
        (deleteAction name st).1 = Except.ok () ∧
        (deleteAction name st).2.profiles =
          st.profiles.filter (fun p => !(eqIC p.name name))) ∧
    (deleteAction name st).2.pointer = st.pointer ∧
    (deleteAction name st).2.liveDir = st.liveDir := by
  refine ⟨fun h => ?_, fun h => ?_, ?_, ?_⟩
  · unfold deleteAction
    rw [if_neg]
    intro hc
    rcases List.any_eq_true.mp hc with ⟨p, hp, hpe⟩
    rw [h p hp] at hpe
    exact Bool.false_ne_true hpe
  · unfold deleteAction
    rw [if_pos h]
    exact ⟨rfl, rfl⟩
  · unfold deleteAction
    split
    · rfl
    · rfl
  · unfold deleteAction
    split
    · rfl
    · rfl

/-- C7 witness: deleting "a" while the pointer holds "a" removes the
snapshot and leaves the pointer still set to "a". -/
theorem C7_delete_frame_w :
    (deleteAction "a" ⟨[⟨"a", 0, []⟩], some [], none, some "a", true⟩).1 =
      Except.ok () ∧
    (deleteAction "a" ⟨[⟨"a", 0, []⟩], some [], none, some "a", true⟩).2.profiles =
      [] ∧
    (deleteAction "a" ⟨[⟨"a", 0, []⟩], some [], none, some "a", true⟩).2.pointer =
      some "a" := by
  have h := C7_delete_frame "a" ⟨[⟨"a", 0, []⟩], some [], none, some "a", true⟩
  exact ⟨(h.2.1 (by decide)).1, (h.2.1 (by decide)).2, h.2.2.1⟩

/-- C8: the log-tail cursor is monotone. A cycle whose file size is at most
the cursor is skipped with the cursor unchanged; the cursor never decreases
in any cycle (and hence not across any sequence of cycles); and whenever the
cursor changes, the file had strictly grown and the cursor was assigned the
strictly larger new size. -/
theorem C8_cursor_monotone (file : Option (List Char)) (cursor : Nat)
    (files : List (Option (List Char))) :
    (∀ content, file = some content → content.length ≤ cursor →
        logPollCycle file cursor = (cursor, none)) ∧
    cursor ≤ (logPollCycle file cursor).1 ∧
    ((logPollCycle file cursor).1 ≠ cursor →
        ∃ content, file = some content ∧ cursor < content.length ∧
          (logPollCycle file cursor).1 = content.length) ∧
    cursor ≤ List.foldl (fun c f => (logPollCycle f c).1) cursor files := by
  refine ⟨?_, pollCursor_le file cursor, ?_, ?_⟩
  · rintro content rfl h
    rw [logPollCycle_some, if_pos h]
  · intro hne
    cases file with
    | none =>
      rw [logPollCycle_none] at hne
      exact absurd rfl hne
    | some content =>
      by_cases h : content.length ≤ cursor
      · rw [logPollCycle_some, if_pos h] at hne
        exact absurd rfl hne
      · refine ⟨content, rfl, by omega, ?_⟩
        rw [logPollCycle_some, if_neg h]
  · induction files generalizing cursor with
    | nil => exact Nat.le_refl cursor
    | cons f fs ih =>
      simp only [List.foldl_cons]
      exact Nat.le_trans (pollCursor_le f cursor) (ih ((logPollCycle f cursor).1))

/-- C8 witness: a shrunk file (length 2, cursor 5) is skipped with the
cursor unchanged. -/
theorem C8_cursor_monotone_w : logPollCycle (some ('a' :: 'b' :: [])) 5 = (5, none) :=
  (C8_cursor_monotone (some ('a' :: 'b' :: [])) 5 []).1 ('a' :: 'b' :: []) rfl
    (by decide)

/-- C9 counterexample: the claim as stated is false. With cursor 0 and a
20000-character log, the bytes handed to the Pattern Matcher are not the
whole appended region: the read is capped at 10000 bytes. -/
theorem C9_delta_cex :
    (logPollCycle (some (List.replicate 20000 'x')) 0).2 ≠
      some (List.replicate 20000 'x') := by
  intro h
  rw [logPollCycle_some, if_neg (by rw [List.length_replicate]; omega)] at h
  simp only [List.drop_zero, List.take_replicate] at h
  have hlen := congrArg List.length (Option.some.inj h)
  simp only [List.length_replicate, Nat.sub_zero] at hlen
  rw [show min 20000 LOG_READ_CAP = 10000 from by decide] at hlen
  exact absurd hlen (by decide)

/-- C9 as amended: on a cycle where the file grew, the detector reads the
first `min(newSize - cursor, 10000)` characters of the appended region
(starting at the cursor), feeds exactly that slice to the Pattern Matcher,
and sets the cursor to the new size; the whole delta is scanned exactly when
it is at most 10000 characters — any longer remainder is skipped forever. -/
theorem C9_delta_amended (content : List Char) (cursor : Nat)
    (h : cursor < content.length) :
    logPollCycle (some content) cursor =
      (content.length,
       some ((content.drop cursor).take (min (content.length - cursor) LOG_READ_CAP))) ∧
    (content.length - cursor ≤ LOG_READ_CAP →
        (logPollCycle (some content) cursor).2 = some (content.drop cursor)) ∧
    logPollAlert (some content) cursor =
      containsRateLimitError
        ⟨(content.drop cursor).take (min (content.length - cursor) LOG_READ_CAP)⟩ := by
  have h1 : logPollCycle (some content) cursor =
      (content.length,
       some ((content.drop cursor).take
              (min (content.length - cursor) LOG_READ_CAP))) := by
    rw [logPollCycle_some, if_neg (by omega)]
  refine ⟨h1, fun hcap => ?_, ?_⟩
  · rw [h1]
    have hmin : min (content.length - cursor) LOG_READ_CAP = content.length - cursor :=
      Nat.min_eq_left hcap
    rw [hmin, List.take_of_length_le (by simp)]
  · unfold logPollAlert
    rw [h1]

/-- C9 witness: a 3-character file with cursor 1 reads exactly the two
appended characters and advances the cursor to 3. -/
theorem C9_delta_amended_w :
    logPollCycle (some ('a' :: 'b' :: 'c' :: [])) 1 = (3, some ('b' :: 'c' :: [])) := by
  have h := C9_delta_amended ('a' :: 'b' :: 'c' :: []) 1 (by decide)
  rw [h.1]
  rfl

/-- C10: any text containing the three-character substring "429" anywhere is
accepted by the Pattern Matcher, since "429" is one of the fixed patterns
and matching is bare substring inclusion after case folding. -/
theorem C10_contains_429 (text : String)
    (h : ∃ s u, text.data = s ++ ('4' :: '2' :: '9' :: []) ++ u) :
    containsRateLimitError text = true := by
  obtain ⟨s, u, hsu⟩ := h
  have hm : matchIgnoringCase ("429").data text.data :=
    ⟨s, '4' :: '2' :: '9' :: [], u, hsu, by decide⟩
  unfold containsRateLimitError
  rw [List.any_eq_true]
  exact ⟨"429", by decide, (containsSub_lower_iff _ _).mpr hm⟩

/-- C10 witness: "timestamp 14296" contains "429" inside a longer number and
is accepted. -/
theorem C10_contains_429_w : containsRateLimitError "timestamp 14296" = true :=
  C10_contains_429 "timestamp 14296" ⟨"timestamp 1".data, "6".data, by decide⟩
